import Mathlib

/-!
Verification development for the WhoAD credential-rotating AD-enumeration
engine (src/WhoAD.py).  The Python source is shallowly embedded: pure string
manipulation is translated to structural recursion on character lists, the
ldap3 library is modelled at its interface boundary by an oracle
(`Directory`), Python exceptions become `Except` values, and the two
orchestrator branches of `main` become `runRotation` and `runSingle`.
-/

set_option maxHeartbeats 1000000

namespace WhoAD

/-- Python single-character split, as used by `user.split(':')` in the source
(line 65).  Operates on the character list of a string: "a:b" gives
["a", "b"], "" gives [""], "a::b" gives ["a", "", "b"]. -/
def splitColon : List Char → List (List Char)
  | [] => [[]]
  | c :: rest =>
    match splitColon rest with
    | [] => [[c]]
    | h :: t => if c = (':') then [] :: h :: t else (c :: h) :: t

/-- Python `s.split(':')` lifted back to strings. -/
def pySplit (s : String) : List String := (splitColon s.data).map String.mk

/-- Python `s.split(':')[0]`: the identifier part of a credential line
(source line 65).  `pySplit` never returns an empty list, so the default
is never used. -/
def pyIdent (s : String) : String := (pySplit s).headD ("")

/-- Python `set.add` on the used-identifier set, modelled as a duplicate-free
list (source lines 67 and 72). -/
def pyAdd (used : List String) (x : String) : List String :=
  if x ∈ used then used else x :: used

/-- Python `domain.replace('.', ',DC=')` (source line 363).  The pattern is a
single character, so substring replacement coincides with per-character
expansion. -/
def replaceDotChars : List Char → List Char
  | [] => []
  | c :: rest =>
    if c = ('.') then (',') :: ('D') :: ('C') :: ('=') :: replaceDotChars rest
    else c :: replaceDotChars rest

/-- Source line 363: `base_dn = f"DC={args.domain.replace('.', ',DC=')}"`. -/
def base_dn (domain : String) : String :=
  String.mk (('D') :: ('C') :: ('=') :: replaceDotChars domain.data)

/-- Separator join, used only to state the specification of `base_dn`. -/
def interS (sep : String) : List String → String
  | [] => ""
  | [s] => s
  | s :: t :: rest => s ++ sep ++ interS sep (t :: rest)

/-- A directory entry as the shaping code sees it: the `cn` value plus the
optional secondary attributes the six queries project.  A `none` field
models an attribute the server did not return (AD omits attributes with no
values). -/
structure Entry where
  cn : String
  memberOf : Option (List String)
  allowedToDelegateTo : Option (List String)
  servicePrincipalName : Option (List String)
  ntSecurityDescriptor : Option (List String)
deriving DecidableEq

/-- The per-query record shape `{'User': ..., 'Object': ...}` produced by the
`find_*` functions. -/
structure SRec where
  user : String
  obj : Option (List String)
deriving DecidableEq

/-- The aggregate record shape `{'Category': ..., 'User': ..., 'Object': ...}`
built in `main` (source lines 408-414). -/
structure Rec where
  category : String
  user : String
  obj : Option (List String)
deriving DecidableEq

/-- The Python exceptions that can escape the embedded code paths:
`IndexError` from `available_users[0]` on an empty pool, a tuple-unpacking
`ValueError` from `user, password = ...`, the explicit `ValueError` raised by
`connect_to_ad`, and the ldap3 attribute-lookup error raised when an entry
lacks a requested attribute. -/
inductive RunErr where
  | indexError
  | unpackError
  | valueError
  | attributeNotFound
deriving DecidableEq

/-- Attribute access `entry['x']` / `entry.x` at the ldap3 boundary: ldap3
raises a lookup error when the entry does not carry the attribute (the
source itself guards exactly one such access with `hasattr`, line 118). -/
def getAttr (a : Option (List String)) : Except RunErr (List String) :=
  match a with
  | some v => .ok v
  | none => .error .attributeNotFound

/-- Shaping comprehension of `find_no_preauth_users` (source line 79):
`[{'User': entry['cn'], 'Object': None} for entry in conn.entries]`. -/
def no_preauth_shape : List Entry → Except RunErr (List SRec)
  | [] => .ok []
  | e :: rest => do
    let tail ← no_preauth_shape rest
    .ok (⟨e.cn, none⟩ :: tail)

/-- Shaping comprehension of `find_sid_history_users` (source line 84). -/
def sid_history_shape : List Entry → Except RunErr (List SRec)
  | [] => .ok []
  | e :: rest => do
    let tail ← sid_history_shape rest
    .ok (⟨e.cn, none⟩ :: tail)

/-- Shaping comprehension of `find_delegation_users` (source line 89):
`Object` is `entry['memberOf']`, which raises when the entry has no
`memberOf` attribute. -/
def delegation_shape : List Entry → Except RunErr (List SRec)
  | [] => .ok []
  | e :: rest => do
    let m ← getAttr e.memberOf
    let tail ← delegation_shape rest
    .ok (⟨e.cn, some m⟩ :: tail)

/-- Shaping comprehension of `find_dc_sync_users` (source line 94):
`Object` is `entry['msDS-AllowedToDelegateTo']`. -/
def dc_sync_shape : List Entry → Except RunErr (List SRec)
  | [] => .ok []
  | e :: rest => do
    let m ← getAttr e.allowedToDelegateTo
    let tail ← dc_sync_shape rest
    .ok (⟨e.cn, some m⟩ :: tail)

/-- Shaping comprehension of `find_service_users` (source line 133):
`Object` is `entry['servicePrincipalName']`. -/
def service_shape : List Entry → Except RunErr (List SRec)
  | [] => .ok []
  | e :: rest => do
    let m ← getAttr e.servicePrincipalName
    let tail ← service_shape rest
    .ok (⟨e.cn, some m⟩ :: tail)

/-- The `critical_objects` list of `find_full_control_users`
(source lines 101-109). -/
def critical_objects : List String :=
  ["CN=Domain Admins", "CN=Enterprise Admins", "CN=Administrators",
   "CN=Schema Admins", "CN=Server Operators", "CN=Account Operators",
   "CN=Backup Operators"]

/-- The entry loop of `find_full_control_users` (source lines 116-126).
Entries without a `memberOf` attribute are skipped by the `hasattr` guard;
`critical_object in groups` is Python list membership, so an exact string
comparison against each `memberOf` value; `entry.ntSecurityDescriptor` is an
unguarded access that raises when the attribute is absent, and its truthiness
is that of an ldap3 attribute, nonemptiness of its value list. -/
def full_control_shape : List Entry → Except RunErr (List SRec)
  | [] => .ok []
  | e :: rest =>
    match e.memberOf with
    | none => full_control_shape rest
    | some groups =>
      if critical_objects.any (fun c => decide (c ∈ groups)) then
        full_control_shape rest
      else do
        let sd ← getAttr e.ntSecurityDescriptor
        let tail ← full_control_shape rest
        if sd = [] then .ok tail else .ok (⟨e.cn, some groups⟩ :: tail)

/-- Search filter of `find_no_preauth_users` (source line 77). -/
def no_preauth_filter : String := "(userAccountControl:1.2.840.113556.1.4.803:=4194304)"

/-- Search filter of `find_sid_history_users` (source line 82). -/
def sid_history_filter : String := "(sIDHistory=*)"

/-- Search filter of `find_delegation_users` (source line 87). -/
def delegation_filter : String := "(userAccountControl:1.2.840.113556.1.4.803:=524288)"

/-- Search filter of `find_dc_sync_users` (source line 92). -/
def dc_sync_filter : String := "(|(msDS-AllowedToDelegateTo=*)(msDS-AllowedToActOnBehalfOfOtherIdentity=*))"

/-- Search filter of `find_full_control_users` (source line 111). -/
def full_control_filter : String := "(|(objectClass=computer)(objectClass=group)(objectClass=user))"

/-- Search filter of `find_service_users` (source line 131). -/
def service_filter : String := "(servicePrincipalName=*)"

/-- The ldap3 transport, modelled as a black-box oracle per spec section 6:
`accepts` is the server's bind verdict for a principal and secret,
`bindResult` the server-reported bind result message (`conn.result`), and
`entries` the entries matching a search with the given base DN and filter on
a bound session. -/
structure Directory where
  accepts : String → String → Bool
  bindResult : String → String → String
  entries : String → String → List Entry

/-- The state of an ldap3 `Connection` after `connect_to_ad` returns: the
principal and secret it was built with, which keyword branch supplied the
secret, whether `bind()` succeeded, the server result message, and the bind
attempts made (always exactly one). -/
structure Conn where
  user : String
  secret : String
  viaPassword : Bool
  bound : Bool
  result : String
  attempts : List (String × String)
deriving DecidableEq

/-- The principal `f'{domain}\\{username}'` (source lines 39 and 41). -/
def principal (domain username : String) : String :=
  domain ++ ("\\") ++ username

/-- Building a `Connection` and calling `bind()` once. -/
def mkConn (d : Directory) (domain username secret : String) (viaPassword : Bool) : Conn :=
  let p := principal domain username
  { user := p, secret := secret, viaPassword := viaPassword,
    bound := d.accepts p secret, result := d.bindResult p secret,
    attempts := [(p, secret)] }

/-- Source lines 35-50.  Python truthiness on the keyword arguments: `None`
and the empty string are both falsy.  On a rejected bind the failure is
printed and the same connection object is returned; only the missing-secret
case raises (`ValueError`). -/
def connect_to_ad (d : Directory) (dcHost domain username : String)
    (password hash_value : Option String) : Except RunErr Conn :=
  if password.getD ("") ≠ "" then
    .ok (mkConn d domain username (password.getD ("")) true)
  else if hash_value.getD ("") ≠ "" then
    .ok (mkConn d domain username (hash_value.getD ("")) false)
  else
    .error .valueError

/-- Entries visible through `conn.entries` after `conn.search(...)` on this
connection.  Boundary model of the ldap3/AD behaviour: a search issued on a
connection whose bind was rejected is refused by the server, so it yields no
entries (ldap3 with default settings records the failure and leaves
`conn.entries` empty rather than raising). -/
def conn_search (d : Directory) (conn : Conn) (base filt : String) : List Entry :=
  if conn.bound then d.entries base filt else []

/-- Source lines 76-79. -/
def find_no_preauth_users (d : Directory) (conn : Conn) (bd : String) :
    Except RunErr (List SRec) :=
  no_preauth_shape (conn_search d conn bd no_preauth_filter)

/-- Source lines 81-84. -/
def find_sid_history_users (d : Directory) (conn : Conn) (bd : String) :
    Except RunErr (List SRec) :=
  sid_history_shape (conn_search d conn bd sid_history_filter)

/-- Source lines 86-89. -/
def find_delegation_users (d : Directory) (conn : Conn) (bd : String) :
    Except RunErr (List SRec) :=
  delegation_shape (conn_search d conn bd delegation_filter)

/-- Source lines 91-94. -/
def find_dc_sync_users (d : Directory) (conn : Conn) (bd : String) :
    Except RunErr (List SRec) :=
  dc_sync_shape (conn_search d conn bd dc_sync_filter)

/-- Source lines 96-128. -/
def find_full_control_users (d : Directory) (conn : Conn) (bd : String) :
    Except RunErr (List SRec) :=
  full_control_shape (conn_search d conn bd full_control_filter)

/-- Source lines 130-133. -/
def find_service_users (d : Directory) (conn : Conn) (bd : String) :
    Except RunErr (List SRec) :=
  service_shape (conn_search d conn bd service_filter)

/-- Source lines 53-73.  `avail` is the stripped line list of the credential
file (re-read on every call, hence a constant parameter); `used_users` is
the caller's used-identifier set.  The used set is cleared when its size
equals the line count; the scan returns the first line whose identifier is
unused; the fallback indexes `available_users[0]`, raising `IndexError` on
an empty pool. -/
def get_next_credentials (avail : List String) (used_users : List String) :
    Except RunErr (List String × List String) :=
  let used := if used_users.length = avail.length then [] else used_users
  match avail.find? (fun u => decide (pyIdent u ∉ used)) with
  | some u => .ok (pySplit u, pyAdd used (pyIdent u))
  | none =>
    match avail with
    | [] => .error .indexError
    | first :: _ => .ok (pySplit first, pyAdd used (pyIdent first))

/-- The tuple unpacking `user, password = get_next_credentials(...)`
(source line 371): exactly two parts or a `ValueError`. -/
def unpack2 : List String → Except RunErr (String × String)
  | [a, b] => .ok (a, b)
  | _ => .error .unpackError

/-- Iterated rotation: the results of `n` consecutive `get_next_credentials`
calls starting from a given used set, together with the final used set. -/
def selectionsFrom (avail : List String) :
    List String → Nat → Except RunErr (List (List String) × List String)
  | used, 0 => .ok ([], used)
  | used, n + 1 => do
    let (c, used') ← get_next_credentials avail used
    let (cs, usedF) ← selectionsFrom avail used' n
    .ok (c :: cs, usedF)

/-- Tuple-unpacking each selected credential in turn. -/
def unpackAll : List (List String) → Except RunErr (List (String × String))
  | [] => .ok []
  | c :: cs => do
    let p ← unpack2 c
    let ps ← unpackAll cs
    .ok (p :: ps)

/-- One catalog query: report category, LDAP filter, and shaping function. -/
structure Query where
  category : String
  filt : String
  shape : List Entry → Except RunErr (List SRec)

/-- The six queries in the execution order of `main` (source lines 371-405):
delegation, SID history, DC sync, full control, service, no pre-auth. -/
def catalog : List Query :=
  [⟨"Delegation Users", delegation_filter, delegation_shape⟩,
   ⟨"SID History Users", sid_history_filter, sid_history_shape⟩,
   ⟨"DC-Sync Users", dc_sync_filter, dc_sync_shape⟩,
   ⟨"Full Control Users", full_control_filter, full_control_shape⟩,
   ⟨"Service Users", service_filter, service_shape⟩,
   ⟨"No Pre-auth Users", no_preauth_filter, no_preauth_shape⟩]

/-- Observable events of a run: each issued directory search (base DN and
filter) and each `progress.update(task, advance=1)` signal. -/
inductive Ev where
  | search (base filt : String)
  | advance
deriving DecidableEq

/-- The event trace a run of the given queries produces when nothing fails. -/
def traceFor (bd : String) : List Query → List Ev
  | [] => []
  | q :: qs => .search bd q.filt :: .advance :: traceFor bd qs

/-- The searches recorded in a trace. -/
def searchesOf : List Ev → List (String × String)
  | [] => []
  | .search b f :: rest => (b, f) :: searchesOf rest
  | .advance :: rest => searchesOf rest

/-- The number of advance signals recorded in a trace. -/
def countAdvance : List Ev → Nat
  | [] => 0
  | .advance :: rest => countAdvance rest + 1
  | .search _ _ :: rest => countAdvance rest

/-- The rotation-mode query loop (source lines 365-405): per query, rotate a
credential, unpack it, open a connection (one bind attempt), run the query's
search on that connection, shape the entries, signal progress, and continue.
Note there is no skip logic: the search is issued on the returned connection
whether or not its bind succeeded. -/
def runQueries (d : Directory) (dc domain bd : String) (avail : List String) :
    List Query → List String → Except RunErr (List (List SRec) × List Ev × List String)
  | [], used => .ok ([], [], used)
  | q :: qs, used => do
    let (cred, used') ← get_next_credentials avail used
    let (u, p) ← unpack2 cred
    let conn ← connect_to_ad d dc domain u (some p) none
    let srecs ← q.shape (conn_search d conn bd q.filt)
    let (outs, tr, usedF) ← runQueries d dc domain bd avail qs used'
    .ok (srecs :: outs, .search bd q.filt :: .advance :: tr, usedF)

/-- The aggregate construction of `main` (source lines 408-414): six
`data.extend` calls in a fixed order; the SID-history and no-preauth rows
hard-code `'Object': None`, the other four copy the shaped Object. -/
def buildData (dele sid dcs fc svc npre : List SRec) : List Rec :=
  (dele.map fun e => ⟨"Delegation Users", e.user, e.obj⟩)
  ++ (sid.map fun e => ⟨"SID History Users", e.user, none⟩)
  ++ (dcs.map fun e => ⟨"DC-Sync Users", e.user, e.obj⟩)
  ++ (fc.map fun e => ⟨"Full Control Users", e.user, e.obj⟩)
  ++ (svc.map fun e => ⟨"Service Users", e.user, e.obj⟩)
  ++ (npre.map fun e => ⟨"No Pre-auth Users", e.user, none⟩)

/-- The rotation branch of `main` (source lines 365-419): compute the base DN
once, run the six queries with per-query rotated credentials, then build the
aggregate.  The final match is exhaustive in practice since the loop returns
one result list per catalog query. -/
def runRotation (d : Directory) (dc domain : String) (avail : List String) :
    Except RunErr (List Rec × List Ev) := do
  let bd := base_dn domain
  let (outs, tr, _) ← runQueries d dc domain bd avail catalog []
  match outs with
  | [dele, sid, dcs, fc, svc, npre] => .ok (buildData dele sid dcs fc svc npre, tr)
  | _ => .error .unpackError

/-- The single-credential query loop (source lines 425-450): the same six
queries on one shared connection. -/
def runQueriesSingle (d : Directory) (bd : String) (conn : Conn) :
    List Query → Except RunErr (List (List SRec) × List Ev)
  | [] => .ok ([], [])
  | q :: qs => do
    let srecs ← q.shape (conn_search d conn bd q.filt)
    let (outs, tr) ← runQueriesSingle d bd conn qs
    .ok (srecs :: outs, .search bd q.filt :: .advance :: tr)

/-- The single-credential branch of `main` (source lines 421-464).  The
`if conn:` test on line 424 is always true (a Connection object is truthy),
so it is not modelled as a branch. -/
def runSingle (d : Directory) (dc domain username password : String) :
    Except RunErr (List Rec × List Ev) := do
  let conn ← connect_to_ad d dc domain username (some password) none
  let (outs, tr) ← runQueriesSingle d (base_dn domain) conn catalog
  match outs with
  | [dele, sid, dcs, fc, svc, npre] => .ok (buildData dele sid dcs fc svc npre, tr)
  | _ => .error .unpackError

/-- One rotate-and-connect step of the rotation loop (source lines 371-372):
select the next credential from the file, unpack it, and authenticate with
it; the file secret is always passed as the `password` keyword argument. -/
def loadAndConnect (d : Directory) (dc domain : String) (avail used : List String) :
    Except RunErr (Conn × List String) := do
  let (cred, used') ← get_next_credentials avail used
  let (u, p) ← unpack2 cred
  let conn ← connect_to_ad d dc domain u (some p) none
  .ok (conn, used')

/-- The used-identifier list after consuming a pool prefix in order:
`pyAdd` prepends, so the list is the reversed identifier sequence. -/
def revIdents (l : List String) : List String := (l.map pyIdent).reverse

/-- The selection sequence of `k` full rotation cycles over a pool. -/
def cycles (avail : List String) : Nat → List (List String)
  | 0 => []
  | k + 1 => avail.map pySplit ++ cycles avail k

lemma exBind_ok {ε α β : Type} (a : α) (f : α → Except ε β) :
    (Except.ok a >>= f) = f a := rfl

lemma exBind_error {ε α β : Type} (e : ε) (f : α → Except ε β) :
    ((Except.error e : Except ε α) >>= f) = .error e := rfl

lemma find?_append_of_none {α : Type} {p : α → Bool} (l₁ l₂ : List α)
    (h : ∀ u ∈ l₁, p u = false) : (l₁ ++ l₂).find? p = l₂.find? p := by
  induction l₁ with
  | nil => simp
  | cons a t ih =>
    rw [List.cons_append, List.find?_cons_of_neg _ (by simp [h a (by simp)])]
    exact ih (fun u hu => h u (by simp [hu]))

/-- One rotation step: with the identifiers of the prefix `pre` already used
and distinct identifiers overall, the next selection is the head of the
remaining suffix. -/
lemma get_next_step (pre : List String) (x : String) (post : List String)
    (hnd : (((pre ++ x :: post)).map pyIdent).Nodup) :
    get_next_credentials (pre ++ x :: post) (revIdents pre) =
      .ok (pySplit x, revIdents (pre ++ [x])) := by
  have hx : pyIdent x ∉ pre.map pyIdent := by
    rw [List.map_append, List.nodup_append] at hnd
    exact fun hmem => hnd.2.2 hmem (by simp)
  have hlen : ¬((revIdents pre).length = (pre ++ x :: post).length) := by
    simp only [revIdents, List.length_reverse, List.length_map, List.length_append,
      List.length_cons]
    omega
  have hpre : ∀ u ∈ pre, (fun u => decide (pyIdent u ∉ revIdents pre)) u = false := by
    intro u hu
    simp only [decide_eq_false_iff_not, Decidable.not_not, revIdents,
      List.mem_reverse, List.mem_map]
    exact ⟨u, hu, rfl⟩
  have hpos : (fun u => decide (pyIdent u ∉ revIdents pre)) x = true := by
    simp only [decide_eq_true_eq, revIdents, List.mem_reverse]
    exact hx
  have hadd : pyAdd (revIdents pre) (pyIdent x) = revIdents (pre ++ [x]) := by
    unfold pyAdd
    rw [if_neg (by simpa [revIdents, List.mem_reverse] using hx)]
    simp [revIdents]
  simp only [get_next_credentials, if_neg hlen]
  rw [find?_append_of_none pre (x :: post) hpre,
    @List.find?_cons_of_pos _ (fun u => decide (pyIdent u ∉ revIdents pre)) x post hpos]
  simp [hadd]

/-- A full cycle from any point: starting with the identifiers of the prefix
used, the remaining suffix is selected in order and the used set ends full. -/
lemma selections_cycle_aux (avail : List String)
    (hnd : (avail.map pyIdent).Nodup) :
    ∀ post pre, avail = pre ++ post →
    selectionsFrom avail (revIdents pre) post.length =
      .ok (post.map pySplit, revIdents avail) := by
  intro post
  induction post with
  | nil =>
    intro pre h
    rw [List.append_nil] at h
    subst h
    simp [selectionsFrom]
  | cons x rest ih =>
    intro pre h
    subst h
    have hstep := get_next_step pre x rest hnd
    have hih := ih (pre ++ [x]) (by simp)
    simp [selectionsFrom, hstep, hih, exBind_ok]

/-- A pool with distinct identifiers is consumed exactly once, in order, by
as many selections as it has members. -/
lemma selections_full_cycle (avail : List String)
    (hnd : (avail.map pyIdent).Nodup) :
    selectionsFrom avail [] avail.length =
      .ok (avail.map pySplit, revIdents avail) := by
  have := selections_cycle_aux avail hnd avail [] (by simp)
  simpa [revIdents] using this

/-- After a full cycle the next call clears the used set, so it behaves as a
call on the empty used set. -/
lemma get_next_credentials_full (avail : List String) (h0 : avail ≠ []) :
    get_next_credentials avail (revIdents avail) =
      get_next_credentials avail [] := by
  unfold get_next_credentials
  rw [if_pos (by simp [revIdents]), if_neg (by
    simp only [List.length_nil]
    exact fun h => h0 (List.eq_nil_of_length_eq_zero h.symm))]

lemma selectionsFrom_full (avail : List String) (h0 : avail ≠ []) (n : Nat) :
    selectionsFrom avail (revIdents avail) (n + 1) =
      selectionsFrom avail [] (n + 1) := by
  rw [selectionsFrom, selectionsFrom, get_next_credentials_full avail h0]

lemma selectionsFrom_add {avail used : List String} {m n : Nat}
    {cs ds : List (List String)} {u1 u2 : List String}
    (h1 : selectionsFrom avail used m = .ok (cs, u1))
    (h2 : selectionsFrom avail u1 n = .ok (ds, u2)) :
    selectionsFrom avail used (m + n) = .ok (cs ++ ds, u2) := by
  induction m generalizing used cs with
  | zero =>
    simp only [selectionsFrom, Except.ok.injEq, Prod.mk.injEq] at h1
    obtain ⟨hcs, hu⟩ := h1
    subst hcs
    subst hu
    simpa [Nat.zero_add] using h2
  | succ m ih =>
    simp only [selectionsFrom] at h1
    cases hg : get_next_credentials avail used with
    | error e =>
      rw [hg] at h1
      simp [exBind_error] at h1
    | ok p =>
      obtain ⟨c, used'⟩ := p
      rw [hg] at h1
      simp only [exBind_ok] at h1
      cases hs : selectionsFrom avail used' m with
      | error e =>
        rw [hs] at h1
        simp [exBind_error] at h1
      | ok q =>
        obtain ⟨cs', u1'⟩ := q
        rw [hs] at h1
        simp only [exBind_ok, Except.ok.injEq, Prod.mk.injEq] at h1
        obtain ⟨hcs, hu⟩ := h1
        subst hu
        rw [show m + 1 + n = (m + n) + 1 by omega]
        simp [selectionsFrom, hg, exBind_ok, ih hs, ← hcs]

/-- After any whole number of full cycles, the next selection is again the
first pool member. -/
lemma selections_cycle_plus_one (a : String) (rest : List String)
    (hnd : ((a :: rest).map pyIdent).Nodup) (k : Nat) :
    selectionsFrom (a :: rest) [] (k * (a :: rest).length + 1) =
      .ok (cycles (a :: rest) k ++ [pySplit a], [pyIdent a]) := by
  induction k with
  | zero =>
    have h1 := get_next_step [] a rest (by simpa using hnd)
    simp only [List.nil_append] at h1
    simp only [revIdents, List.map_nil, List.reverse_nil, List.map_cons,
      List.map_nil, List.reverse_cons, List.reverse_nil, List.nil_append] at h1
    rw [Nat.zero_mul, Nat.zero_add]
    simp [selectionsFrom, h1, exBind_ok, cycles]
  | succ k ih =>
    have harith : (k + 1) * (a :: rest).length + 1 =
        (a :: rest).length + (k * (a :: rest).length + 1) := by ring
    rw [harith]
    have hfull := selections_full_cycle (a :: rest) hnd
    have hrest : selectionsFrom (a :: rest) (revIdents (a :: rest))
        (k * (a :: rest).length + 1) =
        .ok (cycles (a :: rest) k ++ [pySplit a], [pyIdent a]) := by
      rw [selectionsFrom_full (a :: rest) (by simp) (k * (a :: rest).length)]
      exact ih
    rw [selectionsFrom_add hfull hrest]
    simp [cycles]

/-- C2: on a non-empty pool with distinct identifiers and an initially empty
used set, N consecutive selections (N the pool size) return the pool
credentials each exactly once in original order, and one selection after any
whole number of full cycles returns the first credential again. -/
theorem rotator_round_robin (a : String) (rest : List String)
    (hnd : ((a :: rest).map pyIdent).Nodup) :
    selectionsFrom (a :: rest) [] (a :: rest).length =
      .ok ((a :: rest).map pySplit, revIdents (a :: rest)) ∧
    ∀ k : Nat, selectionsFrom (a :: rest) [] (k * (a :: rest).length + 1) =
      .ok (cycles (a :: rest) k ++ [pySplit a], [pyIdent a]) :=
  ⟨selections_full_cycle (a :: rest) hnd,
   fun k => selections_cycle_plus_one a rest hnd k⟩

/-- Witness for C2 on the pool [alice, bob]: two selections cover the pool in
order, and the fifth selection (after two full cycles) is alice again. -/
theorem rotator_round_robin_witness :
    ((("alice:p1") :: ["bob:p2"]).map pyIdent).Nodup ∧
    selectionsFrom (("alice:p1") :: ["bob:p2"]) [] 2 =
      .ok ([["alice", "p1"], ["bob", "p2"]], ["bob", "alice"]) ∧
    selectionsFrom (("alice:p1") :: ["bob:p2"]) [] 5 =
      .ok ([["alice", "p1"], ["bob", "p2"], ["alice", "p1"], ["bob", "p2"],
            ["alice", "p1"]], ["alice"]) := by
  have h := rotator_round_robin ("alice:p1") ["bob:p2"] (by decide)
  exact ⟨by decide, h.1, h.2 2⟩

/-- A directory oracle that accepts every bind and returns no entries. -/
def dAccept : Directory :=
  { accepts := fun _ _ => true, bindResult := fun _ _ => "success",
    entries := fun _ _ => [] }

/-- A directory oracle that rejects every bind. -/
def dReject : Directory :=
  { accepts := fun _ _ => false, bindResult := fun _ _ => "invalidCredentials",
    entries := fun _ _ => [] }

/-- C4 counterexample: on the empty pool the code reaches a selection attempt
and fails there with the Python `IndexError` from `available_users[0]`;
there is no construction-time `ConfigurationError` in the code at all, so the
failure claimed to happen before any selection in fact happens inside the
first selection. -/
theorem empty_pool_counterexample :
    get_next_credentials [] [] = .error .indexError ∧
    selectionsFrom [] [] 1 = .error .indexError :=
  ⟨rfl, rfl⟩

/-- C4 amended: for an empty credential pool every selection attempt fails
with an index error (the code defines no `ConfigurationError` and performs no
construction-time validation), and hence no selection ever returns a
credential. -/
theorem empty_pool_never_returns (used : List String) (n : Nat) :
    selectionsFrom [] used (n + 1) = .error .indexError := by
  have hg : get_next_credentials [] used = .error .indexError := by
    unfold get_next_credentials
    simp
  simp [selectionsFrom, hg, exBind_error]

/-- Witness for C4 amended: three selections on the empty pool all fail with
the index error. -/
theorem empty_pool_never_returns_witness :
    selectionsFrom [] [] 3 = .error .indexError :=
  empty_pool_never_returns [] 2

/-- C7 counterexample: a credential-file secret beginning with the literal
marker HASH is still delivered through the `password` keyword argument (the
Password interpretation); the code contains no HASH-marker handling. -/
theorem hash_marker_counterexample :
    loadAndConnect dAccept ("dc1") ("corp") ["alice:HASHdeadbeef"] [] =
      .ok ({ user := "corp\\alice", secret := "HASHdeadbeef", viaPassword := true,
             bound := true, result := "success",
             attempts := [("corp\\alice", "HASHdeadbeef")] }, ["alice"]) := rfl

/-- C7 amended: a credential line identifier:secret with a nonempty secret
loads exactly that identifier and secret, and the secret is always passed as
the NTLM password argument (so every file credential gets the Password
interpretation, marker or not). -/
theorem credential_line_loading (d : Directory) (dc domain line a b : String)
    (hsplit : pySplit line = [a, b]) (hb : b ≠ "") :
    loadAndConnect d dc domain [line] [] =
      .ok (mkConn d domain a b true, [pyIdent line]) := by
  have hg : get_next_credentials [line] [] = .ok (pySplit line, [pyIdent line]) := by
    have h := get_next_step [] line [] (by simp)
    simpa [revIdents] using h
  have hc : connect_to_ad d dc domain a (some b) none = .ok (mkConn d domain a b true) := by
    unfold connect_to_ad
    simp only [Option.getD_some, Option.getD_none]
    rw [if_pos hb]
  simp [loadAndConnect, hg, hsplit, unpack2, hc, exBind_ok]

/-- Witness for C7 amended on the line bob:HASHcafe. -/
theorem credential_line_loading_witness :
    pySplit ("bob:HASHcafe") = ["bob", "HASHcafe"] ∧ ("HASHcafe" : String) ≠ "" ∧
    loadAndConnect dAccept ("dc1") ("corp") ["bob:HASHcafe"] [] =
      .ok (mkConn dAccept ("corp") ("bob") ("HASHcafe") true, [pyIdent ("bob:HASHcafe")]) :=
  ⟨rfl, by decide,
   credential_line_loading dAccept ("dc1") ("corp") ("bob:HASHcafe") ("bob") ("HASHcafe")
     rfl (by decide)⟩

/-- C3 counterexample: when the server rejects the bind, `connect_to_ad` does
not return an error value at all: it returns the connection object, unbound,
with the server-reported reason only recorded on it (and printed). -/
theorem connect_rejected_counterexample :
    connect_to_ad dReject ("dc1") ("corp") ("alice") (some ("pw")) none =
      .ok { user := "corp\\alice", secret := "pw", viaPassword := true, bound := false,
            result := "invalidCredentials", attempts := [("corp\\alice", "pw")] } := rfl

/-- C3 amended: exactly one bind attempt per call with principal
domain\\username; a truthy password is used, otherwise a truthy hash, both
passed identically as the NTLM password; the call returns the connection
object whether or not the bind was accepted (bound records the verdict and
result the server-reported reason); with neither secret truthy it raises
`ValueError`. -/
theorem connect_to_ad_behaviour (d : Directory) (dc domain username pw hv : String) :
    (pw ≠ "" → connect_to_ad d dc domain username (some pw) (some hv) =
      .ok { user := principal domain username, secret := pw, viaPassword := true,
            bound := d.accepts (principal domain username) pw,
            result := d.bindResult (principal domain username) pw,
            attempts := [(principal domain username, pw)] }) ∧
    (hv ≠ "" → connect_to_ad d dc domain username none (some hv) =
      .ok { user := principal domain username, secret := hv, viaPassword := false,
            bound := d.accepts (principal domain username) hv,
            result := d.bindResult (principal domain username) hv,
            attempts := [(principal domain username, hv)] }) ∧
    connect_to_ad d dc domain username none none = .error .valueError ∧
    connect_to_ad d dc domain username (some ("")) (some ("")) = .error .valueError := by
  refine ⟨fun hpw => ?_, fun hhv => ?_, rfl, rfl⟩
  · unfold connect_to_ad
    simp only [Option.getD_some]
    rw [if_pos hpw]
    rfl
  · unfold connect_to_ad
    simp only [Option.getD_some, Option.getD_none]
    rw [if_neg (by simp), if_pos hhv]
    rfl

/-- Witness for C3 amended: a rejected bind still yields a returned (unbound)
connection with a single recorded attempt. -/
theorem connect_to_ad_behaviour_witness :
    ("pw" : String) ≠ "" ∧
    connect_to_ad dReject ("dc1") ("corp") ("alice") (some ("pw")) (some ("h")) =
      .ok { user := "corp\\alice", secret := "pw", viaPassword := true, bound := false,
            result := "invalidCredentials", attempts := [("corp\\alice", "pw")] } :=
  ⟨by decide,
   (connect_to_ad_behaviour dReject ("dc1") ("corp") ("alice") ("pw") ("h")).1 (by decide)⟩

/-- An entry carrying only a cn: every secondary attribute is absent. -/
def entryNoAttrs : Entry := ⟨"orphan", none, none, none, none⟩

lemma no_preauth_shape_ok (es : List Entry) :
    no_preauth_shape es = .ok (es.map (fun e => ⟨e.cn, none⟩)) := by
  induction es with
  | nil => rfl
  | cons e rest ih => simp [no_preauth_shape, ih, exBind_ok]

lemma sid_history_shape_ok (es : List Entry) :
    sid_history_shape es = .ok (es.map (fun e => ⟨e.cn, none⟩)) := by
  induction es with
  | nil => rfl
  | cons e rest ih => simp [sid_history_shape, ih, exBind_ok]

lemma delegation_shape_missing {es : List Entry} {e : Entry}
    (hmem : e ∈ es) (hnone : e.memberOf = none) :
    delegation_shape es = .error .attributeNotFound := by
  induction es with
  | nil => cases hmem
  | cons a rest ih =>
    rcases List.mem_cons.mp hmem with rfl | hmem'
    · simp [delegation_shape, hnone, getAttr, exBind_error]
    · cases ha : a.memberOf with
      | none => simp [delegation_shape, ha, getAttr, exBind_error]
      | some m =>
        simp [delegation_shape, ha, getAttr, exBind_ok, ih hmem', exBind_error]

lemma dc_sync_shape_missing {es : List Entry} {e : Entry}
    (hmem : e ∈ es) (hnone : e.allowedToDelegateTo = none) :
    dc_sync_shape es = .error .attributeNotFound := by
  induction es with
  | nil => cases hmem
  | cons a rest ih =>
    rcases List.mem_cons.mp hmem with rfl | hmem'
    · simp [dc_sync_shape, hnone, getAttr, exBind_error]
    · cases ha : a.allowedToDelegateTo with
      | none => simp [dc_sync_shape, ha, getAttr, exBind_error]
      | some m =>
        simp [dc_sync_shape, ha, getAttr, exBind_ok, ih hmem', exBind_error]

lemma service_shape_missing {es : List Entry} {e : Entry}
    (hmem : e ∈ es) (hnone : e.servicePrincipalName = none) :
    service_shape es = .error .attributeNotFound := by
  induction es with
  | nil => cases hmem
  | cons a rest ih =>
    rcases List.mem_cons.mp hmem with rfl | hmem'
    · simp [service_shape, hnone, getAttr, exBind_error]
    · cases ha : a.servicePrincipalName with
      | none => simp [service_shape, ha, getAttr, exBind_error]
      | some m =>
        simp [service_shape, ha, getAttr, exBind_ok, ih hmem', exBind_error]

/-- C5 counterexample: applying the Delegation shaping to an entry lacking
`memberOf` raises an ldap3 attribute-lookup error instead of producing a
record with a null relatedObject. -/
theorem shape_missing_attr_counterexample :
    delegation_shape [entryNoAttrs] = .error .attributeNotFound := rfl

/-- C5 amended: only the No-Preauth and SID-History shapings tolerate
arbitrary entries (their relatedObject is unconditionally null); the
Delegation, DC-Sync and Service shapings index the secondary attribute
directly and fail with an attribute-lookup error on any entry lacking it
(and set relatedObject to the attribute value, not null, when present). -/
theorem shape_missing_attr_behaviour :
    (∀ es : List Entry, no_preauth_shape es = .ok (es.map (fun e => ⟨e.cn, none⟩))) ∧
    (∀ es : List Entry, sid_history_shape es = .ok (es.map (fun e => ⟨e.cn, none⟩))) ∧
    (∀ (es : List Entry) (e : Entry), e ∈ es → e.memberOf = none →
      delegation_shape es = .error .attributeNotFound) ∧
    (∀ (es : List Entry) (e : Entry), e ∈ es → e.allowedToDelegateTo = none →
      dc_sync_shape es = .error .attributeNotFound) ∧
    (∀ (es : List Entry) (e : Entry), e ∈ es → e.servicePrincipalName = none →
      service_shape es = .error .attributeNotFound) :=
  ⟨no_preauth_shape_ok, sid_history_shape_ok,
   fun _ _ hm hn => delegation_shape_missing hm hn,
   fun _ _ hm hn => dc_sync_shape_missing hm hn,
   fun _ _ hm hn => service_shape_missing hm hn⟩

/-- Witness for C5 amended on a concrete attribute-less entry. -/
theorem shape_missing_attr_behaviour_witness :
    (entryNoAttrs ∈ [entryNoAttrs] ∧ entryNoAttrs.memberOf = none) ∧
    dc_sync_shape [entryNoAttrs] = .error .attributeNotFound :=
  ⟨⟨by decide, rfl⟩,
   shape_missing_attr_behaviour.2.2.2.1 [entryNoAttrs] entryNoAttrs (by decide) rfl⟩

/-- An object with a present, non-trivial security descriptor and no
memberOf attribute at all. -/
def fcCounterEntry : Entry :=
  ⟨"victim", none, none, none, some ["D:(A;;GA;;;WD)"]⟩

/-- An object with a memberOf attribute naming only an unprivileged group
and a present security descriptor. -/
def fcIncludedEntry : Entry :=
  ⟨"svc", some ["CN=Ops,DC=corp,DC=local"], none, none, some ["D:(A;;GA;;;WD)"]⟩

/-- C6 counterexample: an object whose security descriptor is present and
non-trivial and which belongs to no group whatsoever (so certainly to no
privileged group) is nonetheless dropped by the Full-Control shaping,
because the `hasattr` guard on `memberOf` excludes it outright. -/
theorem full_control_counterexample :
    fcCounterEntry.ntSecurityDescriptor = some ["D:(A;;GA;;;WD)"] ∧
    fcCounterEntry.memberOf = none ∧
    full_control_shape [fcCounterEntry] = .ok [] :=
  ⟨rfl, rfl, rfl⟩

/-- Spec-side description of the Full-Control shaping of one entry, stated
from the amended claim: include an entry exactly when it carries a
`memberOf` attribute, none of its group values equals one of the seven
critical names, and its security descriptor is present and nonempty. -/
def fcSpecRecord (e : Entry) : Option SRec :=
  match e.memberOf with
  | none => none
  | some groups =>
    if critical_objects.any (fun c => decide (c ∈ groups)) then none
    else
      match e.ntSecurityDescriptor with
      | none => none
      | some sd => if sd = [] then none else some ⟨e.cn, some groups⟩

/-- C6 amended: the Full-Control shaping keeps exactly the entries with a
`memberOf` attribute whose values avoid the seven critical names (compared
by exact string equality) and whose security descriptor is present and
nonempty; in particular an entry whose `memberOf` contains a critical name
exactly is excluded even with a non-trivial descriptor, and an entry with no
`memberOf` attribute is always excluded.  The hypothesis rules out the
attribute-lookup error on otherwise-included entries with an absent
descriptor. -/
theorem full_control_characterisation (es : List Entry)
    (hsd : ∀ e ∈ es, e.memberOf.isSome ∧
        ¬ critical_objects.any (fun c => decide (c ∈ e.memberOf.getD [])) →
        e.ntSecurityDescriptor.isSome) :
    full_control_shape es = .ok (es.filterMap fcSpecRecord) := by
  induction es with
  | nil => rfl
  | cons e rest ih =>
    have ih' := ih (fun x hx => hsd x (by simp [hx]))
    cases hm : e.memberOf with
    | none =>
      simp [full_control_shape, hm, ih', fcSpecRecord, List.filterMap_cons]
    | some groups =>
      by_cases hcrit : critical_objects.any (fun c => decide (c ∈ groups))
      · simp [full_control_shape, hm, hcrit, ih', fcSpecRecord, List.filterMap_cons]
      · have hsde : e.ntSecurityDescriptor.isSome :=
          hsd e (by simp) (by simp [hm, hcrit])
        cases hsdd : e.ntSecurityDescriptor with
        | none => rw [hsdd] at hsde; simp at hsde
        | some sd =>
          by_cases hempty : sd = []
          · simp [full_control_shape, hm, hcrit, hsdd, getAttr, exBind_ok, ih',
              fcSpecRecord, List.filterMap_cons, hempty]
          · simp [full_control_shape, hm, hcrit, hsdd, getAttr, exBind_ok, ih',
              fcSpecRecord, List.filterMap_cons, hempty]

/-- Witness for C6 amended: a privileged member is dropped, an unprivileged
object with a descriptor is kept. -/
theorem full_control_characterisation_witness :
    (∀ e ∈ [fcIncludedEntry, fcCounterEntry], e.memberOf.isSome ∧
        ¬ critical_objects.any (fun c => decide (c ∈ e.memberOf.getD [])) →
        e.ntSecurityDescriptor.isSome) ∧
    full_control_shape [fcIncludedEntry, fcCounterEntry] =
      .ok ([fcIncludedEntry, fcCounterEntry].filterMap fcSpecRecord) :=
  ⟨by decide, full_control_characterisation [fcIncludedEntry, fcCounterEntry] (by decide)⟩

/-- The entries a query sees given the credential the rotation assigned to
it: the oracle's matching entries when the bind is accepted, nothing when the
bind is rejected (the search still happens, on the unbound connection). -/
def queryEntriesFor (d : Directory) (domain bd : String) (up : String × String)
    (q : Query) : List Entry :=
  if d.accepts (principal domain up.1) up.2 then d.entries bd q.filt else []

/-- The shaped per-query outputs of a run, given the credential assigned to
each query. -/
def shapeAll (d : Directory) (domain bd : String) :
    List Query → List (String × String) → Except RunErr (List (List SRec))
  | [], _ => .ok []
  | _ :: _, [] => .ok []
  | q :: qs, up :: ups => do
    let srecs ← q.shape (queryEntriesFor d domain bd up q)
    let rest ← shapeAll d domain bd qs ups
    .ok (srecs :: rest)

/-- Master characterisation of the rotation-mode query loop: when the
rotation, the tuple unpacking, and every shaping succeed (with all secrets
truthy), the loop returns exactly the shaped outputs, the standard trace,
and the rotation's final used set. -/
lemma runQueries_spec (d : Directory) (dc domain bd : String) (avail : List String) :
    ∀ (qs : List Query) (used : List String) (creds : List (List String))
      (usedF : List String) (ups : List (String × String)) (outs : List (List SRec)),
    selectionsFrom avail used qs.length = .ok (creds, usedF) →
    unpackAll creds = .ok ups →
    (∀ up ∈ ups, up.2 ≠ "") →
    shapeAll d domain bd qs ups = .ok outs →
    runQueries d dc domain bd avail qs used = .ok (outs, traceFor bd qs, usedF) := by
  intro qs
  induction qs with
  | nil =>
    intro used creds usedF ups outs hsel hup htr hshape
    simp only [List.length_nil, selectionsFrom, Except.ok.injEq, Prod.mk.injEq] at hsel
    obtain ⟨hcreds, husedF⟩ := hsel
    subst hcreds
    subst husedF
    simp only [unpackAll, Except.ok.injEq] at hup
    subst hup
    simp only [shapeAll, Except.ok.injEq] at hshape
    subst hshape
    rfl
  | cons q qs ih =>
    intro used creds usedF ups outs hsel hup htr hshape
    simp only [List.length_cons, selectionsFrom] at hsel
    cases hg : get_next_credentials avail used with
    | error e => rw [hg] at hsel; simp [exBind_error] at hsel
    | ok p =>
      obtain ⟨cred, used'⟩ := p
      rw [hg] at hsel
      simp only [exBind_ok] at hsel
      cases hs : selectionsFrom avail used' qs.length with
      | error e => rw [hs] at hsel; simp [exBind_error] at hsel
      | ok pr =>
        obtain ⟨cs, uF⟩ := pr
        rw [hs] at hsel
        simp only [exBind_ok, Except.ok.injEq, Prod.mk.injEq] at hsel
        obtain ⟨hcreds, huF⟩ := hsel
        subst huF
        subst hcreds
        simp only [unpackAll] at hup
        cases hu : unpack2 cred with
        | error e => rw [hu] at hup; simp [exBind_error] at hup
        | ok up0 =>
          obtain ⟨u, pw⟩ := up0
          rw [hu] at hup
          simp only [exBind_ok] at hup
          cases hus : unpackAll cs with
          | error e => rw [hus] at hup; simp [exBind_error] at hup
          | ok ups' =>
            rw [hus] at hup
            simp only [exBind_ok, Except.ok.injEq] at hup
            subst hup
            have hpw : pw ≠ "" := htr (u, pw) (by simp)
            have hc : connect_to_ad d dc domain u (some pw) none =
                .ok (mkConn d domain u pw true) := by
              unfold connect_to_ad
              simp only [Option.getD_some, Option.getD_none]
              rw [if_pos hpw]
            simp only [shapeAll] at hshape
            cases hsh : q.shape (queryEntriesFor d domain bd (u, pw) q) with
            | error e => rw [hsh] at hshape; simp [exBind_error] at hshape
            | ok srecs =>
              rw [hsh] at hshape
              simp only [exBind_ok] at hshape
              cases hsr : shapeAll d domain bd qs ups' with
              | error e => rw [hsr] at hshape; simp [exBind_error] at hshape
              | ok outs' =>
                rw [hsr] at hshape
                simp only [exBind_ok, Except.ok.injEq] at hshape
                subst hshape
                have hrec := ih used' cs uF ups' outs' hs hus
                  (fun x hx => htr x (by simp [hx])) hsr
                have hcs : conn_search d (mkConn d domain u pw true) bd q.filt =
                    queryEntriesFor d domain bd (u, pw) q := rfl
                simp [runQueries, hg, exBind_ok, hu, hc, hcs, hsh, hrec, traceFor]

/-- Any successful pass over the query loop emits the standard trace and one
output list per query. -/
lemma runQueries_ok_inv (d : Directory) (dc domain bd : String) (avail : List String) :
    ∀ (qs : List Query) (used : List String) (outs : List (List SRec))
      (tr : List Ev) (usedF : List String),
    runQueries d dc domain bd avail qs used = .ok (outs, tr, usedF) →
    tr = traceFor bd qs ∧ outs.length = qs.length := by
  intro qs
  induction qs with
  | nil =>
    intro used outs tr usedF h
    simp only [runQueries, Except.ok.injEq, Prod.mk.injEq] at h
    obtain ⟨houts, htr, _⟩ := h
    subst houts
    subst htr
    exact ⟨rfl, rfl⟩
  | cons q qs ih =>
    intro used outs tr usedF h
    simp only [runQueries] at h
    cases hg : get_next_credentials avail used with
    | error e => rw [hg] at h; simp [exBind_error] at h
    | ok p =>
      obtain ⟨cred, used'⟩ := p
      rw [hg] at h
      simp only [exBind_ok] at h
      cases hu : unpack2 cred with
      | error e => rw [hu] at h; simp [exBind_error] at h
      | ok up0 =>
        obtain ⟨u, pw⟩ := up0
        rw [hu] at h
        simp only [exBind_ok] at h
        cases hc : connect_to_ad d dc domain u (some pw) none with
        | error e => rw [hc] at h; simp [exBind_error] at h
        | ok conn =>
          rw [hc] at h
          simp only [exBind_ok] at h
          cases hsh : q.shape (conn_search d conn bd q.filt) with
          | error e => rw [hsh] at h; simp [exBind_error] at h
          | ok srecs =>
            rw [hsh] at h
            simp only [exBind_ok] at h
            cases hr : runQueries d dc domain bd avail qs used' with
            | error e => rw [hr] at h; simp [exBind_error] at h
            | ok res =>
              obtain ⟨outs', tr', uF⟩ := res
              rw [hr] at h
              simp only [exBind_ok, Except.ok.injEq, Prod.mk.injEq] at h
              obtain ⟨houts, htr, _⟩ := h
              subst houts
              subst htr
              have := ih used' outs' tr' uF hr
              simp [traceFor, this.1, this.2]

lemma list_len6 {α : Type} {l : List α} (h : l.length = 6) :
    ∃ a b c d e f, l = [a, b, c, d, e, f] := by
  rcases l with _ | ⟨a, l⟩
  · simp at h
  rcases l with _ | ⟨b, l⟩
  · simp at h
  rcases l with _ | ⟨c, l⟩
  · simp at h
  rcases l with _ | ⟨d, l⟩
  · simp at h
  rcases l with _ | ⟨e, l⟩
  · simp at h
  rcases l with _ | ⟨f, l⟩
  · simp at h
  have hl : l = [] := by
    have hlen : l.length = 0 := by
      simp only [List.length_cons] at h
      omega
    exact List.eq_nil_of_length_eq_zero hlen
  subst hl
  exact ⟨a, b, c, d, e, f, rfl⟩

/-- Every aggregate record comes from one of the six sections, carries that
section's literal category, and its section is nonempty; the SID-History and
No-Pre-auth sections hard-code a null object. -/
lemma mem_buildData_category {r : Rec} {a b c dd e f : List SRec}
    (h : r ∈ buildData a b c dd e f) :
    (r.category = "Delegation Users" ∧ a ≠ []) ∨
    (r.category = "SID History Users" ∧ r.obj = none ∧ b ≠ []) ∨
    (r.category = "DC-Sync Users" ∧ c ≠ []) ∨
    (r.category = "Full Control Users" ∧ dd ≠ []) ∨
    (r.category = "Service Users" ∧ e ≠ []) ∨
    (r.category = "No Pre-auth Users" ∧ r.obj = none ∧ f ≠ []) := by
  simp only [buildData, List.mem_append, List.mem_map] at h
  rcases h with (((((⟨s, hs, rfl⟩ | ⟨s, hs, rfl⟩) | ⟨s, hs, rfl⟩) | ⟨s, hs, rfl⟩) |
    ⟨s, hs, rfl⟩) | ⟨s, hs, rfl⟩)
  · exact Or.inl ⟨rfl, List.ne_nil_of_mem hs⟩
  · exact Or.inr (Or.inl ⟨rfl, rfl, List.ne_nil_of_mem hs⟩)
  · exact Or.inr (Or.inr (Or.inl ⟨rfl, List.ne_nil_of_mem hs⟩))
  · exact Or.inr (Or.inr (Or.inr (Or.inl ⟨rfl, List.ne_nil_of_mem hs⟩)))
  · exact Or.inr (Or.inr (Or.inr (Or.inr (Or.inl ⟨rfl, List.ne_nil_of_mem hs⟩))))
  · exact Or.inr (Or.inr (Or.inr (Or.inr (Or.inr ⟨rfl, rfl, List.ne_nil_of_mem hs⟩))))

/-- The category string of the i-th catalog query. -/
def catName (i : Fin 6) : String :=
  if i.val = 0 then "Delegation Users"
  else if i.val = 1 then "SID History Users"
  else if i.val = 2 then "DC-Sync Users"
  else if i.val = 3 then "Full Control Users"
  else if i.val = 4 then "Service Users"
  else "No Pre-auth Users"

lemma catName_ne : ∀ i : Fin 6,
    (i.val ≠ 0 → ("Delegation Users" : String) ≠ catName i) ∧
    (i.val ≠ 1 → ("SID History Users" : String) ≠ catName i) ∧
    (i.val ≠ 2 → ("DC-Sync Users" : String) ≠ catName i) ∧
    (i.val ≠ 3 → ("Full Control Users" : String) ≠ catName i) ∧
    (i.val ≠ 4 → ("Service Users" : String) ≠ catName i) ∧
    (i.val ≠ 5 → ("No Pre-auth Users" : String) ≠ catName i) := by
  decide

/-- Characterisation of the whole rotation branch: given the rotated and
unpacked credentials of the six queries and the six shaped outputs, the run
produces exactly the aggregate built from those outputs plus the standard
trace. -/
lemma runRotation_spec (d : Directory) (dc domain : String) (avail : List String)
    (creds : List (List String)) (usedF : List String)
    (p1 p2 p3 p4 p5 p6 : String × String) (w1 w2 w3 w4 w5 w6 : List SRec)
    (hsel : selectionsFrom avail [] 6 = .ok (creds, usedF))
    (hup : unpackAll creds = .ok [p1, p2, p3, p4, p5, p6])
    (htr : ∀ up ∈ [p1, p2, p3, p4, p5, p6], up.2 ≠ "")
    (h1 : delegation_shape (queryEntriesFor d domain (base_dn domain) p1
        ⟨"Delegation Users", delegation_filter, delegation_shape⟩) = .ok w1)
    (h2 : sid_history_shape (queryEntriesFor d domain (base_dn domain) p2
        ⟨"SID History Users", sid_history_filter, sid_history_shape⟩) = .ok w2)
    (h3 : dc_sync_shape (queryEntriesFor d domain (base_dn domain) p3
        ⟨"DC-Sync Users", dc_sync_filter, dc_sync_shape⟩) = .ok w3)
    (h4 : full_control_shape (queryEntriesFor d domain (base_dn domain) p4
        ⟨"Full Control Users", full_control_filter, full_control_shape⟩) = .ok w4)
    (h5 : service_shape (queryEntriesFor d domain (base_dn domain) p5
        ⟨"Service Users", service_filter, service_shape⟩) = .ok w5)
    (h6 : no_preauth_shape (queryEntriesFor d domain (base_dn domain) p6
        ⟨"No Pre-auth Users", no_preauth_filter, no_preauth_shape⟩) = .ok w6) :
    runRotation d dc domain avail =
      .ok (buildData w1 w2 w3 w4 w5 w6, traceFor (base_dn domain) catalog) := by
  have hshape : shapeAll d domain (base_dn domain) catalog [p1, p2, p3, p4, p5, p6] =
      .ok [w1, w2, w3, w4, w5, w6] := by
    simp [shapeAll, catalog, h1, h2, h3, h4, h5, h6, exBind_ok]
  have hrq := runQueries_spec d dc domain (base_dn domain) avail catalog []
    creds usedF [p1, p2, p3, p4, p5, p6] [w1, w2, w3, w4, w5, w6] hsel hup htr hshape
  simp only [runRotation]
  rw [hrq]
  rfl

/-- C1: in a rotation run where the credential rotated to one query is
rejected at bind and the other five queries bind and shape successfully, the
final aggregate consists exactly of the five successful queries' records
(the failed query contributes zero findings, its search running on the
unbound connection and yielding nothing), no aggregate record carries the
failed query's category, and the run completes normally with all six
advance signals. -/
theorem skip_on_auth_failure (d : Directory) (dc domain : String) (avail : List String)
    (creds : List (List String)) (usedF : List String)
    (p1 p2 p3 p4 p5 p6 : String × String) (i : Fin 6)
    (o1 o2 o3 o4 o5 o6 : List SRec)
    (hsel : selectionsFrom avail [] 6 = .ok (creds, usedF))
    (hup : unpackAll creds = .ok [p1, p2, p3, p4, p5, p6])
    (htr : ∀ up ∈ [p1, p2, p3, p4, p5, p6], up.2 ≠ "")
    (hb1 : d.accepts (principal domain p1.1) p1.2 = decide (i.val ≠ 0))
    (hb2 : d.accepts (principal domain p2.1) p2.2 = decide (i.val ≠ 1))
    (hb3 : d.accepts (principal domain p3.1) p3.2 = decide (i.val ≠ 2))
    (hb4 : d.accepts (principal domain p4.1) p4.2 = decide (i.val ≠ 3))
    (hb5 : d.accepts (principal domain p5.1) p5.2 = decide (i.val ≠ 4))
    (hb6 : d.accepts (principal domain p6.1) p6.2 = decide (i.val ≠ 5))
    (hs1 : i.val ≠ 0 →
      delegation_shape (d.entries (base_dn domain) delegation_filter) = .ok o1)
    (hs2 : i.val ≠ 1 →
      sid_history_shape (d.entries (base_dn domain) sid_history_filter) = .ok o2)
    (hs3 : i.val ≠ 2 →
      dc_sync_shape (d.entries (base_dn domain) dc_sync_filter) = .ok o3)
    (hs4 : i.val ≠ 3 →
      full_control_shape (d.entries (base_dn domain) full_control_filter) = .ok o4)
    (hs5 : i.val ≠ 4 →
      service_shape (d.entries (base_dn domain) service_filter) = .ok o5)
    (hs6 : i.val ≠ 5 →
      no_preauth_shape (d.entries (base_dn domain) no_preauth_filter) = .ok o6) :
    runRotation d dc domain avail =
      .ok (buildData (if i.val = 0 then [] else o1) (if i.val = 1 then [] else o2)
            (if i.val = 2 then [] else o3) (if i.val = 3 then [] else o4)
            (if i.val = 4 then [] else o5) (if i.val = 5 then [] else o6),
          traceFor (base_dn domain) catalog) ∧
    (∀ r ∈ buildData (if i.val = 0 then [] else o1) (if i.val = 1 then [] else o2)
            (if i.val = 2 then [] else o3) (if i.val = 3 then [] else o4)
            (if i.val = 4 then [] else o5) (if i.val = 5 then [] else o6),
        r.category ≠ catName i) ∧
    countAdvance (traceFor (base_dn domain) catalog) = 6 := by
  refine ⟨?_, ?_, rfl⟩
  · apply runRotation_spec d dc domain avail creds usedF p1 p2 p3 p4 p5 p6
      _ _ _ _ _ _ hsel hup htr
    · by_cases hi : i.val = 0
      · simp [queryEntriesFor, hb1, hi, delegation_shape]
      · simp [queryEntriesFor, hb1, hi, hs1 hi]
    · by_cases hi : i.val = 1
      · simp [queryEntriesFor, hb2, hi, sid_history_shape]
      · simp [queryEntriesFor, hb2, hi, hs2 hi]
    · by_cases hi : i.val = 2
      · simp [queryEntriesFor, hb3, hi, dc_sync_shape]
      · simp [queryEntriesFor, hb3, hi, hs3 hi]
    · by_cases hi : i.val = 3
      · simp [queryEntriesFor, hb4, hi, full_control_shape]
      · simp [queryEntriesFor, hb4, hi, hs4 hi]
    · by_cases hi : i.val = 4
      · simp [queryEntriesFor, hb5, hi, service_shape]
      · simp [queryEntriesFor, hb5, hi, hs5 hi]
    · by_cases hi : i.val = 5
      · simp [queryEntriesFor, hb6, hi, no_preauth_shape]
      · simp [queryEntriesFor, hb6, hi, hs6 hi]
  · intro r hr
    rcases mem_buildData_category hr with ⟨hc, hne⟩ | ⟨hc, _, hne⟩ | ⟨hc, hne⟩ |
      ⟨hc, hne⟩ | ⟨hc, hne⟩ | ⟨hc, _, hne⟩
    · have hi : i.val ≠ 0 := fun hh => hne (by simp [hh])
      rw [hc]
      exact (catName_ne i).1 hi
    · have hi : i.val ≠ 1 := fun hh => hne (by simp [hh])
      rw [hc]
      exact (catName_ne i).2.1 hi
    · have hi : i.val ≠ 2 := fun hh => hne (by simp [hh])
      rw [hc]
      exact (catName_ne i).2.2.1 hi
    · have hi : i.val ≠ 3 := fun hh => hne (by simp [hh])
      rw [hc]
      exact (catName_ne i).2.2.2.1 hi
    · have hi : i.val ≠ 4 := fun hh => hne (by simp [hh])
      rw [hc]
      exact (catName_ne i).2.2.2.2.1 hi
    · have hi : i.val ≠ 5 := fun hh => hne (by simp [hh])
      rw [hc]
      exact (catName_ne i).2.2.2.2.2 hi

/-- A pool of six well-formed credentials, the second of which the oracle
below rejects. -/
def availC1 : List String :=
  ["u1:a", "u2:b", "u3:c", "u4:d", "u5:e", "u6:f"]

/-- A delegation entry and a service entry used by the C1 witness oracle. -/
def eDel : Entry := ⟨"deleg1", some ["CN=G1"], none, none, none⟩

/-- Service entry of the C1 witness oracle. -/
def eSvc : Entry := ⟨"svc1", none, none, some ["HTTP/host"], none⟩

/-- Witness oracle for C1: rejects exactly the principal of the credential
rotated to the second query, returns one delegation entry and one service
entry. -/
def dC1 : Directory :=
  { accepts := fun pr _ => !(pr == "corp.local\\u2"),
    bindResult := fun _ _ => "invalidCredentials",
    entries := fun _ f =>
      if f = delegation_filter then [eDel]
      else if f = service_filter then [eSvc]
      else [] }

/-- Witness for C1: with the SID-History query's bind rejected, the run
completes, aggregates only the other queries' records, and no record has
the SID-History category. -/
theorem skip_on_auth_failure_witness :
    (∀ up ∈ [(("u1" : String), ("a" : String)), ("u2", "b"), ("u3", "c"),
        ("u4", "d"), ("u5", "e"), ("u6", "f")], up.2 ≠ "") ∧
    runRotation dC1 ("dc1") ("corp.local") availC1 =
      .ok (buildData [⟨"deleg1", some ["CN=G1"]⟩] [] [] [] [⟨"svc1", some ["HTTP/host"]⟩] [],
           traceFor (base_dn ("corp.local")) catalog) ∧
    ∀ r ∈ buildData [⟨"deleg1", some ["CN=G1"]⟩] [] [] [] [⟨"svc1", some ["HTTP/host"]⟩] [],
      r.category ≠ catName 1 := by
  have h := skip_on_auth_failure dC1 ("dc1") ("corp.local") availC1
    (availC1.map pySplit) (revIdents availC1)
    ("u1", "a") ("u2", "b") ("u3", "c") ("u4", "d") ("u5", "e") ("u6", "f") 1
    [⟨"deleg1", some ["CN=G1"]⟩] [] [] [] [⟨"svc1", some ["HTTP/host"]⟩] []
    rfl rfl (by decide) rfl rfl rfl rfl rfl rfl
    (fun _ => rfl) (fun hh => absurd rfl hh) (fun _ => rfl) (fun _ => rfl)
    (fun _ => rfl) (fun _ => rfl)
  exact ⟨by decide, h.1, h.2.1⟩

lemma selectionsFrom_ok_length (avail : List String) :
    ∀ (n : Nat) (used : List String) (creds : List (List String)) (usedF : List String),
    selectionsFrom avail used n = .ok (creds, usedF) → creds.length = n := by
  intro n
  induction n with
  | zero =>
    intro used creds usedF h
    simp only [selectionsFrom, Except.ok.injEq, Prod.mk.injEq] at h
    obtain ⟨hc, _⟩ := h
    simp [← hc]
  | succ n ih =>
    intro used creds usedF h
    simp only [selectionsFrom] at h
    cases hg : get_next_credentials avail used with
    | error e => rw [hg] at h; simp [exBind_error] at h
    | ok p =>
      obtain ⟨c, used'⟩ := p
      rw [hg] at h
      simp only [exBind_ok] at h
      cases hs : selectionsFrom avail used' n with
      | error e => rw [hs] at h; simp [exBind_error] at h
      | ok q =>
        obtain ⟨cs, uF⟩ := q
        rw [hs] at h
        simp only [exBind_ok, Except.ok.injEq, Prod.mk.injEq] at h
        obtain ⟨hc, _⟩ := h
        have := ih used' cs uF hs
        simp [← hc, this]

lemma unpackAll_ok_length :
    ∀ (creds : List (List String)) (ups : List (String × String)),
    unpackAll creds = .ok ups → ups.length = creds.length := by
  intro creds
  induction creds with
  | nil =>
    intro ups h
    simp only [unpackAll, Except.ok.injEq] at h
    simp [← h]
  | cons c cs ih =>
    intro ups h
    simp only [unpackAll] at h
    cases hu : unpack2 c with
    | error e => rw [hu] at h; simp [exBind_error] at h
    | ok p =>
      rw [hu] at h
      simp only [exBind_ok] at h
      cases hus : unpackAll cs with
      | error e => rw [hus] at h; simp [exBind_error] at h
      | ok ups' =>
        rw [hus] at h
        simp only [exBind_ok, Except.ok.injEq] at h
        have := ih ups' hus
        simp [← h, this]

/-- C8: with every directory search returning zero entries, both orchestrator
branches attempt each of the six catalog queries exactly once (six searches,
one per catalog filter, in catalog order, never repeated), the final
aggregate is empty, and all six advance signals are still emitted. -/
theorem all_queries_once_empty (d : Directory) (dc domain : String)
    (avail : List String) (creds : List (List String)) (usedF : List String)
    (ups : List (String × String)) (username password : String)
    (hsel : selectionsFrom avail [] 6 = .ok (creds, usedF))
    (hup : unpackAll creds = .ok ups)
    (htr : ∀ up ∈ ups, up.2 ≠ "")
    (hpw : password ≠ "")
    (hentries : ∀ b f, d.entries b f = []) :
    runRotation d dc domain avail = .ok ([], traceFor (base_dn domain) catalog) ∧
    runSingle d dc domain username password =
      .ok ([], traceFor (base_dn domain) catalog) ∧
    searchesOf (traceFor (base_dn domain) catalog) =
      catalog.map (fun q => (base_dn domain, q.filt)) ∧
    countAdvance (traceFor (base_dn domain) catalog) = 6 := by
  have hclen : creds.length = 6 := selectionsFrom_ok_length avail 6 [] creds usedF hsel
  have hulen : ups.length = 6 := by
    rw [unpackAll_ok_length creds ups hup, hclen]
  obtain ⟨q1, q2, q3, q4, q5, q6, rfl⟩ := list_len6 hulen
  have hrot := runRotation_spec d dc domain avail creds usedF q1 q2 q3 q4 q5 q6
    [] [] [] [] [] [] hsel hup htr
    (by simp [queryEntriesFor, hentries, delegation_shape])
    (by simp [queryEntriesFor, hentries, sid_history_shape])
    (by simp [queryEntriesFor, hentries, dc_sync_shape])
    (by simp [queryEntriesFor, hentries, full_control_shape])
    (by simp [queryEntriesFor, hentries, service_shape])
    (by simp [queryEntriesFor, hentries, no_preauth_shape])
  have hbuild : buildData [] [] [] [] [] [] = [] := rfl
  rw [hbuild] at hrot
  have hc : connect_to_ad d dc domain username (some password) none =
      .ok (mkConn d domain username password true) := by
    unfold connect_to_ad
    simp only [Option.getD_some, Option.getD_none]
    rw [if_pos hpw]
  have hsearch : ∀ (conn : Conn) (bd filt : String), conn_search d conn bd filt = [] := by
    intro conn bd filt
    simp [conn_search, hentries]
  have hsingle : runSingle d dc domain username password =
      .ok ([], traceFor (base_dn domain) catalog) := by
    simp [runSingle, hc, exBind_ok, runQueriesSingle, catalog, hsearch,
      delegation_shape, sid_history_shape, dc_sync_shape, full_control_shape,
      service_shape, no_preauth_shape, buildData, traceFor]
  exact ⟨hrot, hsingle, rfl, rfl⟩

/-- Witness for C8: a one-credential pool cycling over all six queries
against an empty directory. -/
theorem all_queries_once_empty_witness :
    (∀ b f, dAccept.entries b f = []) ∧
    runRotation dAccept ("dc1") ("corp.local") ["a:b"] =
      .ok ([], traceFor (base_dn ("corp.local")) catalog) ∧
    runSingle dAccept ("dc1") ("corp.local") ("admin") ("pw") =
      .ok ([], traceFor (base_dn ("corp.local")) catalog) ∧
    countAdvance (traceFor (base_dn ("corp.local")) catalog) = 6 := by
  have h := all_queries_once_empty dAccept ("dc1") ("corp.local") ["a:b"]
    [["a", "b"], ["a", "b"], ["a", "b"], ["a", "b"], ["a", "b"], ["a", "b"]]
    ["a"]
    [("a", "b"), ("a", "b"), ("a", "b"), ("a", "b"), ("a", "b"), ("a", "b")]
    ("admin") ("pw") rfl rfl (by decide) (by decide) (fun _ _ => rfl)
  exact ⟨fun _ _ => rfl, h.1, h.2.1, h.2.2.2⟩

/-- C10: every aggregate record of a completed rotation run whose category is
SID History Users or No Pre-auth Users has a null Object, unconditionally:
both the shaping functions and the aggregate construction hard-code None for
these two categories. -/
theorem sid_nopreauth_null_object (d : Directory) (dc domain : String)
    (avail : List String) (data : List Rec) (tr : List Ev)
    (hrun : runRotation d dc domain avail = .ok (data, tr)) :
    ∀ r ∈ data, r.category = "SID History Users" ∨ r.category = "No Pre-auth Users" →
      r.obj = none := by
  simp only [runRotation] at hrun
  cases hq : runQueries d dc domain (base_dn domain) avail catalog [] with
  | error e => rw [hq] at hrun; simp [exBind_error] at hrun
  | ok res =>
    obtain ⟨outs, tr', usedF⟩ := res
    rw [hq] at hrun
    simp only [exBind_ok] at hrun
    have hlen : outs.length = 6 :=
      (runQueries_ok_inv d dc domain (base_dn domain) avail catalog [] outs tr' usedF hq).2
    obtain ⟨a, b, c, dd, e, f, rfl⟩ := list_len6 hlen
    simp only [Except.ok.injEq, Prod.mk.injEq] at hrun
    obtain ⟨hdata, htr⟩ := hrun
    subst hdata
    intro r hr hcat
    rcases mem_buildData_category hr with ⟨hc, _⟩ | ⟨_, ho, _⟩ | ⟨hc, _⟩ |
      ⟨hc, _⟩ | ⟨hc, _⟩ | ⟨_, ho, _⟩
    · rcases hcat with hh | hh <;> (rw [hc] at hh; exact absurd hh (by decide))
    · exact ho
    · rcases hcat with hh | hh <;> (rw [hc] at hh; exact absurd hh (by decide))
    · rcases hcat with hh | hh <;> (rw [hc] at hh; exact absurd hh (by decide))
    · rcases hcat with hh | hh <;> (rw [hc] at hh; exact absurd hh (by decide))
    · exact ho

/-- Witness oracle for C10: accepts all binds and returns one SID-History
entry. -/
def dSid : Directory :=
  { accepts := fun _ _ => true, bindResult := fun _ _ => "success",
    entries := fun _ f => if f = sid_history_filter then [entryNoAttrs] else [] }

/-- Witness for C10 on a concrete run whose aggregate holds one SID-History
record. -/
theorem sid_nopreauth_null_object_witness :
    runRotation dSid ("dc1") ("corp.local") ["a:b"] =
      .ok ([⟨"SID History Users", "orphan", none⟩],
           traceFor (base_dn ("corp.local")) catalog) ∧
    ∀ r ∈ ([⟨"SID History Users", "orphan", none⟩] : List Rec),
      r.category = "SID History Users" ∨ r.category = "No Pre-auth Users" →
      r.obj = none :=
  ⟨rfl, sid_nopreauth_null_object dSid ("dc1") ("corp.local") ["a:b"]
    [⟨"SID History Users", "orphan", none⟩]
    (traceFor (base_dn ("corp.local")) catalog) rfl⟩

lemma stringExt {s t : String} (h : s.data = t.data) : s = t := by
  cases s
  cases t
  exact congrArg String.mk (by simpa using h)

lemma replaceDotChars_append (l1 l2 : List Char) :
    replaceDotChars (l1 ++ l2) = replaceDotChars l1 ++ replaceDotChars l2 := by
  induction l1 with
  | nil => rfl
  | cons c t ih =>
    by_cases hc : c = ('.') <;> simp [replaceDotChars, hc, ih]

lemma replaceDotChars_no_dot (l : List Char) (h : ('.') ∉ l) :
    replaceDotChars l = l := by
  induction l with
  | nil => rfl
  | cons c t ih =>
    have hc : c ≠ ('.') := fun hh => h (by simp [hh])
    have ht : ('.') ∉ t := fun hh => h (by simp [hh])
    simp [replaceDotChars, hc, ih ht]

/-- Computation rule of the source's base-DN expression: on a domain built
from dot-free labels joined by dots, it produces one DC= component per label
joined by commas. -/
lemma base_dn_spec : ∀ (ls : List String) (l : String),
    (∀ s ∈ l :: ls, ('.') ∉ s.data) →
    base_dn (interS (".") (l :: ls)) =
      interS (",") ((l :: ls).map (fun s => "DC=" ++ s)) := by
  intro ls
  induction ls with
  | nil =>
    intro l h
    have hdot := h l (by simp)
    apply stringExt
    simp [interS, base_dn, replaceDotChars_no_dot _ hdot, String.data_append]
  | cons m rest ih =>
    intro l h
    have hdot : ('.') ∉ l.data := h l (by simp)
    have ihm := ih m (fun s hs => h s (by simp [hs]))
    have ihdata := congrArg String.data ihm
    apply stringExt
    simp only [interS, List.map_cons, String.data_append, base_dn,
      replaceDotChars_append, replaceDotChars_no_dot _ hdot] at ihdata ⊢
    rw [← ihdata]
    simp [replaceDotChars]

/-- C9: the base distinguished name is computed from the domain name by
splitting on dots and joining DC= components with commas (e.g. a.b.c gives
DC=a,DC=b,DC=c), and every completed rotation run issues exactly six
searches, all scoped to that one base DN, one per catalog filter. -/
theorem base_dn_construction_and_usage (l : String) (ls : List String)
    (hdots : ∀ s ∈ l :: ls, ('.') ∉ s.data) :
    base_dn (interS (".") (l :: ls)) =
      interS (",") ((l :: ls).map (fun s => "DC=" ++ s)) ∧
    ∀ (d : Directory) (dc : String) (avail : List String)
      (data : List Rec) (tr : List Ev),
      runRotation d dc (interS (".") (l :: ls)) avail = .ok (data, tr) →
      searchesOf tr =
        catalog.map (fun q => (base_dn (interS (".") (l :: ls)), q.filt)) := by
  refine ⟨base_dn_spec ls l hdots, ?_⟩
  intro d dc avail data tr hrun
  simp only [runRotation] at hrun
  cases hq : runQueries d dc (interS (".") (l :: ls))
      (base_dn (interS (".") (l :: ls))) avail catalog [] with
  | error e => rw [hq] at hrun; simp [exBind_error] at hrun
  | ok res =>
    obtain ⟨outs, tr', usedF⟩ := res
    rw [hq] at hrun
    simp only [exBind_ok] at hrun
    have hinv := runQueries_ok_inv d dc (interS (".") (l :: ls))
      (base_dn (interS (".") (l :: ls))) avail catalog [] outs tr' usedF hq
    obtain ⟨a, b, c, dd, e, f, rfl⟩ := list_len6 hinv.2
    simp only [Except.ok.injEq, Prod.mk.injEq] at hrun
    obtain ⟨_, htr⟩ := hrun
    subst htr
    rw [hinv.1]
    rfl

/-- Witness for C9 on the domain corp.local. -/
theorem base_dn_construction_and_usage_witness :
    (∀ s ∈ ("corp") :: ["local"], ('.') ∉ s.data) ∧
    base_dn (interS (".") (("corp") :: ["local"])) =
      interS (",") ((("corp") :: ["local"]).map (fun s => "DC=" ++ s)) ∧
    searchesOf (traceFor (base_dn ("corp.local")) catalog) =
      catalog.map (fun q => (base_dn (interS (".") (("corp") :: ["local"])), q.filt)) := by
  have h := base_dn_construction_and_usage ("corp") ["local"] (by decide)
  exact ⟨by decide, h.1,
    h.2 dAccept ("dc1") ["a:b"] [] (traceFor (base_dn ("corp.local")) catalog) rfl⟩

end WhoAD
